import Mathlib

/-!
Verification of the value-inference subsystem of the XLA client
(`xla/client/value_inference.h`).

Part 1 embeds the `OptionaLiteral` class: a literal tree (arrays, possibly
nested in tuples, addressed by a shape index and an element index) together
with a parallel boolean mask literal.

Part 2 embeds the public dispatch of the `ValueInference` class: which private
analysis routine each public entry point invokes, with which handle and mode.

Part 3 models the bound-and-constant analyzer itself (its implementation file
is not part of this tree; the model follows the specification's algorithm).
-/

namespace XlaValueInference

/-- A literal: either a dense array (shape plus row-major data) or a tuple of
sub-literals. Mirrors `xla::Literal`, whose elements are addressed by a
`ShapeIndex` (path through tuples) and a multi-dimensional element index. -/
inductive LiteralTree (α : Type) where
  | array (shape : List Nat) (data : List α)
  | tuple (children : List (LiteralTree α))
  deriving Repr

/-- Row-major linearization of a multi-dimensional index, with bounds check:
`none` when the index has the wrong rank or a coordinate is out of range. -/
def flatIndex : List Nat → List Nat → Option Nat
  | [], [] => some 0
  | d :: ds, i :: is =>
      if i < d then (flatIndex ds is).map (fun r => i * ds.prod + r) else none
  | _, _ => none

mutual

/-- Typed element access: descend through tuples by the shape index, then read
the array at the row-major position of the element index. Mirrors
`Literal::Get<NativeT>(element_index, shape_index)`; `none` models the
precondition violation (out-of-bounds index or shape-index into an array). -/
def LiteralTree.get? {α : Type} : LiteralTree α → List Nat → List Nat → Option α
  | .array shape data, [], eidx => (flatIndex shape eidx).bind data.get?
  | .array _ _, _ :: _, _ => none
  | .tuple _, [], _ => none
  | .tuple cs, i :: rest, eidx => LiteralTree.getChild cs i rest eidx

/-- Helper of `LiteralTree.get?`: select the `i`-th tuple child. -/
def LiteralTree.getChild {α : Type} :
    List (LiteralTree α) → Nat → List Nat → List Nat → Option α
  | [], _, _, _ => none
  | c :: _, 0, rest, eidx => c.get? rest eidx
  | _ :: cs, n + 1, rest, eidx => LiteralTree.getChild cs n rest eidx

end

mutual

/-- All elements stored in a literal, in traversal order. -/
def LiteralTree.elems {α : Type} : LiteralTree α → List α
  | .array _ data => data
  | .tuple cs => LiteralTree.elemsOf cs

/-- Helper of `LiteralTree.elems`: elements of a list of children. -/
def LiteralTree.elemsOf {α : Type} : List (LiteralTree α) → List α
  | [] => []
  | c :: cs => c.elems ++ LiteralTree.elemsOf cs

end

/-- `Literal::IsAll(int value)` for a boolean (PRED) literal: true iff every
element equals the boolean meaning of `value`. -/
def LiteralTree.IsAll (l : LiteralTree Bool) (value : Int) : Bool :=
  l.elems.all (fun b => b == decide (value ≠ 0))

/-- A read-only view over a literal, mirroring `xla::LiteralSlice`. -/
structure LiteralSlice (α : Type) where
  view : LiteralTree α
  deriving Repr

/-- `OptionaLiteral`: a value literal holding both valid and garbage values,
plus a boolean mask literal flagging which elements are garbage
(`mask = true` means the value element is garbage/unknown). -/
structure OptionaLiteral (α : Type) where
  value_ : LiteralTree α
  mask_ : LiteralTree Bool

/-- `OptionaLiteral::Get<NativeT>(element_index, shape_index)`: absent when the
mask at the index is set, otherwise the value element at the index. -/
def OptionaLiteral.Get {α : Type} (l : OptionaLiteral α)
    (element_index : List Nat) (shape_index : List Nat) : Option α :=
  match l.mask_.get? shape_index element_index with
  | some true => none
  | some false => l.value_.get? shape_index element_index
  | none => none

/-- `OptionaLiteral::AllValid()`: true iff the mask literal is all-zero. -/
def OptionaLiteral.AllValid {α : Type} (l : OptionaLiteral α) : Bool :=
  l.mask_.IsAll 0

/-- `OptionaLiteral::GetValue()`: a read-only slice of the value literal when
all elements are valid, otherwise absent. -/
def OptionaLiteral.GetValue {α : Type} (l : OptionaLiteral α) :
    Option (LiteralSlice α) :=
  if !l.AllValid then none
  else some ⟨l.value_⟩

/-! Part 2: the `ValueInference` class's public dispatch (from the header). -/

/-- `ValueInferenceMode`: which question the analysis answers. -/
inductive ValueInferenceMode where
  | kValue
  | kUpperBound
  | kLowerBound
  deriving DecidableEq, Repr

/-- An operation handle wrapper, mirroring the `handle()` accessor of
`xla::XlaOp` that the public entry points read. -/
structure XlaOp where
  handle : Int
  deriving DecidableEq, Repr

/-- The graph builder the analyzer is constructed over; a black box to this
subsystem. -/
structure XlaBuilder where
  id : Nat
  deriving DecidableEq, Repr

/-- The declared result type of a private analysis routine:
`StatusOr<Literal>` or `StatusOr<OptionaLiteral>`. -/
inductive AnalysisResultType where
  | statusOrLiteral
  | statusOrOptionaLiteral
  deriving DecidableEq, Repr

/-- The call a public `ValueInference` entry point delegates to: a private
routine applied to a handle (and, where the routine takes one, a mode). -/
inductive AnalysisCall where
  | analyzeOptionalConstant (handle : Int) (mode : ValueInferenceMode)
  | analyzeIsDynamic (handle : Int) (mode : ValueInferenceMode)
  deriving DecidableEq, Repr

/-- The mode argument a delegated private call carries. -/
def AnalysisCall.callMode : AnalysisCall → ValueInferenceMode
  | .analyzeOptionalConstant _ m => m
  | .analyzeIsDynamic _ m => m

/-- The handle argument a delegated private call carries. -/
def AnalysisCall.callHandle : AnalysisCall → Int
  | .analyzeOptionalConstant h _ => h
  | .analyzeIsDynamic h _ => h

/-- The declared result type of the delegated private routine:
`AnalyzeOptionalConstant` returns `StatusOr<OptionaLiteral>`, the private
`AnalyzeIsDynamic` returns `StatusOr<Literal>`. -/
def AnalysisCall.resultType : AnalysisCall → AnalysisResultType
  | .analyzeOptionalConstant _ _ => .statusOrOptionaLiteral
  | .analyzeIsDynamic _ _ => .statusOrLiteral

/-- `ValueInference`: holds the builder pointer (`none` models a null
pointer). -/
structure ValueInference where
  builder_ : Option XlaBuilder
  deriving DecidableEq, Repr

/-- The constructor `ValueInference(XlaBuilder* builder)`: stores the pointer
and runs `CHECK(builder_)`; a failing CHECK aborts, modelled as `none`. -/
def ValueInference.construct (builder : Option XlaBuilder) :
    Option ValueInference :=
  let vi : ValueInference := ⟨builder⟩
  if vi.builder_.isSome then some vi else none

/-- Public `AnalyzeIsDynamic(XlaOp op)`: delegates to the private
`AnalyzeIsDynamic(op.handle(), ValueInferenceMode::kValue)`. -/
def ValueInference.AnalyzeIsDynamic (vi : ValueInference) (op : XlaOp) :
    AnalysisCall × ValueInference :=
  (.analyzeIsDynamic op.handle .kValue, vi)

/-- Public `AnalyzeConstant(XlaOp op, ValueInferenceMode mode)`: delegates to
`AnalyzeOptionalConstant(op.handle(), mode)`. -/
def ValueInference.AnalyzeConstant (vi : ValueInference) (op : XlaOp)
    (mode : ValueInferenceMode) : AnalysisCall × ValueInference :=
  (.analyzeOptionalConstant op.handle mode, vi)

/-! Part 3: the bound-and-constant analyzer. Its implementation file is not
part of this tree (the header only declares `AnalyzeOptionalConstant`,
`AnalyzeUpperBound`, `AnalyzeLowerBound`, ...), so the analyzer is modelled
from the specification's algorithm. -/

/-- Modelled from the spec: the maximum representable value of a signed
integer element type of `w` bits. -/
def typeMax (w : Nat) : Int := 2 ^ (w - 1) - 1

/-- Modelled from the spec: the minimum representable value of a signed
integer element type of `w` bits. -/
def typeMin (w : Nat) : Int := -(2 ^ (w - 1))

/-- Modelled from the spec: bound combination saturates to the type's bound
rather than overflowing silently. -/
def saturate (w : Nat) (x : Int) : Int :=
  max (typeMin w) (min (typeMax w) x)

/-- Modelled from the spec: `MaskedValue`, a value tensor plus a parallel
boolean mask; `mask = true` flags an unknown element. Tensors are flattened
to their row-major element lists. -/
structure MaskedValue where
  value : List Int
  mask : List Bool
  deriving DecidableEq, Repr

/-- Whether a `MaskedValue` is fully known (every mask element false). -/
def MaskedValue.allKnown (mv : MaskedValue) : Bool :=
  mv.mask.all (fun m => m == false)

/-- Modelled from the spec: a node of the operation graph. `constant` is a
literal opcode; `dynamicParam` is a node flagged as runtime-dynamic, with
optionally attached static lower/upper bounds; `add` and `mul` are
elementwise arithmetic opcodes with transfer rules; `otherOp` stands for an
opcode without a transfer rule, for which the analysis falls back to the
external concrete-evaluation service (`size` is its declared output element
count). -/
inductive Node where
  | constant (lit : List Int)
  | dynamicParam (size : Nat) (lb ub : Option (List Int))
  | add (a b : Node)
  | mul (a b : Node)
  | otherOp (tag : Nat) (size : Nat) (ops : List Node)
  deriving Repr

/-- The external concrete-evaluation service: evaluates the subgraph rooted at
a node to an exact element list, or fails. -/
def Evaluator : Type := Node → Except String (List Int)

mutual

/-- Modelled from the spec: the Value-mode analysis (`InferDynamism` /
`InferConstant`). A constant is fully known; a runtime-dynamic node is fully
unknown; elementwise arithmetic combines operand values and ORs the masks
(an element is known only if every contributing operand element is); an
opcode without a transfer rule is sent to the external evaluator when all
operands are fully known — an evaluator failure is surfaced as the analysis
error — and is otherwise fully unknown. -/
def inferValue (ev : Evaluator) : Node → Except String MaskedValue
  | .constant lit => .ok ⟨lit, lit.map (fun _ => false)⟩
  | .dynamicParam size _ _ =>
      .ok ⟨List.replicate size 0, List.replicate size true⟩
  | .add a b => do
      let x ← inferValue ev a
      let y ← inferValue ev b
      if x.value.length = y.value.length ∧ x.mask.length = y.mask.length then
        .ok ⟨List.zipWith (· + ·) x.value y.value,
             List.zipWith (· || ·) x.mask y.mask⟩
      else .error "shape mismatch"
  | .mul a b => do
      let x ← inferValue ev a
      let y ← inferValue ev b
      if x.value.length = y.value.length ∧ x.mask.length = y.mask.length then
        .ok ⟨List.zipWith (· * ·) x.value y.value,
             List.zipWith (· || ·) x.mask y.mask⟩
      else .error "shape mismatch"
  | .otherOp tag size ops => do
      let rs ← inferValueList ev ops
      if rs.all MaskedValue.allKnown then do
        let v ← ev (.otherOp tag size ops)
        .ok ⟨v, v.map (fun _ => false)⟩
      else
        .ok ⟨List.replicate size 0, List.replicate size true⟩

/-- Value-mode analysis of an operand list, failing on the first operand whose
analysis fails. -/
def inferValueList (ev : Evaluator) : List Node → Except String (List MaskedValue)
  | [] => .ok []
  | n :: ns => do
      let r ← inferValue ev n
      let rs ← inferValueList ev ns
      .ok (r :: rs)

end

/-- Modelled from the spec: the bound-mode analysis, computing per element an
inclusive interval `(lower, upper)`. A constant is its own exact bound; a
runtime-dynamic node uses its attached static bounds, falling back per side to
the type's representable min/max; `add` combines bounds analytically
(`lower+lower`, `upper+upper`, saturating); `mul` takes the extremal two of
the four sign-combination products of operand bounds (saturating); an opcode
without a bound rule is evaluated by the external service when all operands
are fully known under Value mode — a failure is surfaced as the analysis
error — and otherwise gets the conservative bound type min/max. -/
def inferInterval (w : Nat) (ev : Evaluator) : Node → Except String (List (Int × Int))
  | .constant lit => .ok (lit.map (fun v => (v, v)))
  | .dynamicParam size lb ub =>
      .ok ((List.range size).map (fun i =>
        ((lb.getD []).getD i (typeMin w), (ub.getD []).getD i (typeMax w))))
  | .add a b => do
      let x ← inferInterval w ev a
      let y ← inferInterval w ev b
      if x.length = y.length then
        .ok (List.zipWith
          (fun p q => (saturate w (p.1 + q.1), saturate w (p.2 + q.2))) x y)
      else .error "shape mismatch"
  | .mul a b => do
      let x ← inferInterval w ev a
      let y ← inferInterval w ev b
      if x.length = y.length then
        .ok (List.zipWith
          (fun p q =>
            (saturate w (min (min (p.1 * q.1) (p.1 * q.2))
                             (min (p.2 * q.1) (p.2 * q.2))),
             saturate w (max (max (p.1 * q.1) (p.1 * q.2))
                             (max (p.2 * q.1) (p.2 * q.2))))) x y)
      else .error "shape mismatch"
  | .otherOp tag size ops => do
      let rs ← inferValueList ev ops
      if rs.all MaskedValue.allKnown then do
        let v ← ev (.otherOp tag size ops)
        .ok (v.map (fun x => (x, x)))
      else
        .ok (List.replicate size (typeMin w, typeMax w))

/-- Modelled from the spec: `InferBound(node, isUpper)` projects the upper or
lower side of the interval analysis. -/
def inferBound (w : Nat) (ev : Evaluator) (isUpper : Bool) (n : Node) :
    Except String (List Int) :=
  (inferInterval w ev n).map (fun l => l.map (fun p => if isUpper then p.2 else p.1))

/-- Modelled from the spec: `InferDynamism(node)`, the Value-mode analysis. -/
def inferDynamism (ev : Evaluator) (n : Node) : Except String MaskedValue :=
  inferValue ev n

/-- Binding a successful `Except` computation applies the continuation. -/
theorem except_bind_ok {ε α β : Type} (a : α) (f : α → Except ε β) :
    (Except.ok a : Except ε α) >>= f = f a := rfl

/-- Binding a failed `Except` computation keeps the error. -/
theorem except_bind_error {ε α β : Type} (e : ε) (f : α → Except ε β) :
    (Except.error e : Except ε α) >>= f = .error e := rfl

/-- `Except.map` over a success. -/
theorem except_map_ok {ε α β : Type} (f : α → β) (a : α) :
    Except.map f (.ok a : Except ε α) = .ok (f a) := rfl

/-- `Except.map` over an error. -/
theorem except_map_error {ε α β : Type} (f : α → β) (e : ε) :
    Except.map f (.error e : Except ε α) = .error e := rfl

/-- Saturation is the identity on representable values. -/
theorem saturate_of_le (w : Nat) (x : Int) (h1 : typeMin w ≤ x)
    (h2 : x ≤ typeMax w) : saturate w x = x := by
  unfold saturate
  omega

/-- When every elementwise sum of two interval lists is representable, the
saturating add-transfer equals the exact interval sum. -/
theorem zipWith_saturate_add (w : Nat) (xs ys : List (Int × Int))
    (hin : ∀ p ∈ List.zipWith (fun p q => (p.1 + q.1, p.2 + q.2)) xs ys,
        typeMin w ≤ p.1 ∧ p.1 ≤ typeMax w ∧ typeMin w ≤ p.2 ∧ p.2 ≤ typeMax w) :
    List.zipWith (fun p q => (saturate w (p.1 + q.1), saturate w (p.2 + q.2)))
        xs ys
      = List.zipWith (fun p q => (p.1 + q.1, p.2 + q.2)) xs ys := by
  induction xs generalizing ys with
  | nil => simp
  | cons x xs ih =>
    cases ys with
    | nil => simp
    | cons y ys =>
      obtain ⟨h1, h2, h3, h4⟩ := hin (x.1 + y.1, x.2 + y.2) (by simp)
      simp only [List.zipWith_cons_cons]
      rw [saturate_of_le w _ h1 h2, saturate_of_le w _ h3 h4]
      exact congrArg _ (ih ys (fun p hp => hin p (List.mem_cons_of_mem _ hp)))

/-! Concrete instances used by witnesses. -/

/-- An evaluation service that always fails; analyses below that never reach
the fallback ignore it. -/
def evFail : Evaluator := fun _ => .error "unavailable"

/-! Theorems. -/

/-- C1: for every `OptionaLiteral` and every in-bounds element index whose
requested type matches the stored element type (both accesses succeed),
`Get(elementIndex, shapeIndex)` is absent when the mask at that index is
true, and is the value tensor's element there when the mask is false. -/
theorem optionaLiteral_get_respects_mask {α : Type} (ol : OptionaLiteral α)
    (eidx sidx : List Nat) (b : Bool) (v : α)
    (hm : ol.mask_.get? sidx eidx = some b)
    (hv : ol.value_.get? sidx eidx = some v) :
    ol.Get eidx sidx = if b then none else some v := by
  unfold OptionaLiteral.Get
  rw [hm]
  cases b <;> simp [hv]

/-- Witness for C1 at a concrete two-element literal with mask
`[true, false]`. -/
theorem optionaLiteral_get_respects_mask_witness :
    (OptionaLiteral.Get ⟨.array [2] [(7 : Int), 9], .array [2] [true, false]⟩
        [0] [] = none)
    ∧ (OptionaLiteral.Get ⟨.array [2] [(7 : Int), 9], .array [2] [true, false]⟩
        [1] [] = some 9) :=
  ⟨optionaLiteral_get_respects_mask _ [0] [] true 7 rfl rfl,
   optionaLiteral_get_respects_mask _ [1] [] false 9 rfl rfl⟩

/-- C2: `AllValid()` is true iff every element of the mask literal is false;
in particular, when at least one mask entry is true, `AllValid()` is
false. -/
theorem optionaLiteral_allValid_iff_mask_all_false {α : Type}
    (ol : OptionaLiteral α) :
    (ol.AllValid = true ↔ ∀ b ∈ ol.mask_.elems, b = false)
    ∧ ((∃ b ∈ ol.mask_.elems, b = true) → ol.AllValid = false) := by
  have hiff : ol.AllValid = true ↔ ∀ b ∈ ol.mask_.elems, b = false := by
    unfold OptionaLiteral.AllValid LiteralTree.IsAll
    simp [List.all_eq_true]
  refine ⟨hiff, ?_⟩
  rintro ⟨b, hb, hbt⟩
  cases hall : ol.AllValid with
  | false => rfl
  | true => exact absurd (hiff.mp hall b hb) (by simp [hbt])

/-- Witness for C2 at concrete mask literals `[false, false]` and
`[false, true]`. -/
theorem optionaLiteral_allValid_iff_mask_all_false_witness :
    (OptionaLiteral.AllValid ⟨.array [2] [(1 : Int), 2], .array [2] [false, false]⟩
      = true)
    ∧ (OptionaLiteral.AllValid ⟨.array [2] [(1 : Int), 2], .array [2] [false, true]⟩
      = false) :=
  ⟨(optionaLiteral_allValid_iff_mask_all_false _).1.mpr (by decide),
   (optionaLiteral_allValid_iff_mask_all_false _).2 ⟨true, by decide, rfl⟩⟩

/-- C3: `GetValue()` is a present read-only view of the value literal iff
`AllValid()` holds, and is absent when `AllValid()` is false. -/
theorem optionaLiteral_getValue_iff_allValid {α : Type}
    (ol : OptionaLiteral α) :
    (ol.GetValue = some ⟨ol.value_⟩ ↔ ol.AllValid = true)
    ∧ (ol.AllValid = false → ol.GetValue = none) := by
  unfold OptionaLiteral.GetValue
  constructor
  · constructor
    · intro h
      cases hall : ol.AllValid with
      | true => rfl
      | false => simp [hall] at h
    · intro h
      simp [h]
  · intro h
    simp [h]

/-- Witness for C3 at concrete literals with all-false and one-true masks. -/
theorem optionaLiteral_getValue_iff_allValid_witness :
    (OptionaLiteral.GetValue ⟨.array [2] [(1 : Int), 2], .array [2] [false, false]⟩
      = some ⟨.array [2] [(1 : Int), 2]⟩)
    ∧ (OptionaLiteral.GetValue ⟨.array [2] [(1 : Int), 2], .array [2] [false, true]⟩
      = none) :=
  ⟨(optionaLiteral_getValue_iff_allValid _).1.mpr rfl,
   (optionaLiteral_getValue_iff_allValid _).2 rfl⟩

/-- C4 counterexample: at a concrete builder, op and mode, the public
`AnalyzeConstant` does not perform the same call as `AnalyzeIsDynamic`: it
delegates to a different private routine whose declared result type differs
(`StatusOr<OptionaLiteral>` versus `StatusOr<Literal>`). -/
theorem analyzeConstant_ne_analyzeIsDynamic_cex :
    ((ValueInference.AnalyzeConstant ⟨some ⟨0⟩⟩ ⟨5⟩ .kValue).1
      ≠ (ValueInference.AnalyzeIsDynamic ⟨some ⟨0⟩⟩ ⟨5⟩).1)
    ∧ ((ValueInference.AnalyzeConstant ⟨some ⟨0⟩⟩ ⟨5⟩ .kValue).1.resultType
      ≠ (ValueInference.AnalyzeIsDynamic ⟨some ⟨0⟩⟩ ⟨5⟩).1.resultType) := by
  decide

/-- C4 amended: `AnalyzeConstant(op, mode)` delegates to
`AnalyzeOptionalConstant(op.handle(), mode)` and returns a
`StatusOr<OptionaLiteral>`, while `AnalyzeIsDynamic(op)` delegates to the
private `AnalyzeIsDynamic(op.handle(), kValue)` and returns a
`StatusOr<Literal>`: the two public queries make distinct calls with distinct
result types, though both are keyed by the same operation handle. -/
theorem analyzeConstant_delegation_amended (vi : ValueInference) (op : XlaOp)
    (mode : ValueInferenceMode) :
    vi.AnalyzeConstant op mode
      = (.analyzeOptionalConstant op.handle mode, vi)
    ∧ vi.AnalyzeIsDynamic op = (.analyzeIsDynamic op.handle .kValue, vi)
    ∧ (vi.AnalyzeConstant op mode).1.callHandle
      = (vi.AnalyzeIsDynamic op).1.callHandle
    ∧ (vi.AnalyzeConstant op mode).1 ≠ (vi.AnalyzeIsDynamic op).1
    ∧ (vi.AnalyzeConstant op mode).1.resultType
      ≠ (vi.AnalyzeIsDynamic op).1.resultType := by
  refine ⟨rfl, rfl, rfl, ?_, ?_⟩ <;>
    simp [ValueInference.AnalyzeConstant, ValueInference.AnalyzeIsDynamic,
      AnalysisCall.resultType]

/-- C5: the public dynamism query always delegates with mode `kValue`, never
a bound mode. -/
theorem analyzeIsDynamic_mode_kValue (vi : ValueInference) (op : XlaOp) :
    (vi.AnalyzeIsDynamic op).1.callMode = .kValue
    ∧ (vi.AnalyzeIsDynamic op).1.callMode ≠ .kUpperBound
    ∧ (vi.AnalyzeIsDynamic op).1.callMode ≠ .kLowerBound := by
  refine ⟨rfl, ?_, ?_⟩ <;>
    simp [ValueInference.AnalyzeIsDynamic, AnalysisCall.callMode]

/-- C10: constructing a `ValueInference` from a null builder pointer fails the
`CHECK`; a successful construction stores exactly the given non-null pointer,
and the public operations leave the stored builder unchanged. -/
theorem construct_requires_builder :
    ValueInference.construct none = none
    ∧ (∀ b vi, ValueInference.construct (some b) = some vi →
        vi.builder_ = some b)
    ∧ (∀ vi op, ((vi : ValueInference).AnalyzeIsDynamic op).2.builder_
        = vi.builder_)
    ∧ (∀ vi op mode, ((vi : ValueInference).AnalyzeConstant op mode).2.builder_
        = vi.builder_) := by
  refine ⟨rfl, ?_, fun _ _ => rfl, fun _ _ _ => rfl⟩
  intro b vi h
  unfold ValueInference.construct at h
  simp at h
  exact h ▸ rfl

/-- Witness for C10: constructing over a concrete builder succeeds and stores
that builder. -/
theorem construct_requires_builder_witness :
    ValueInference.builder_ ⟨some ⟨0⟩⟩ = some ⟨0⟩ :=
  construct_requires_builder.2.1 ⟨0⟩ ⟨some ⟨0⟩⟩ rfl

/-- C6: a runtime-dynamic node with no attached static bound analyzes to an
all-true mask in Value mode, to the type's maximum representable value at
every element in upper-bound mode, and to the type's minimum in lower-bound
mode. -/
theorem dynamicParam_analysis_results (w size : Nat) (ev : Evaluator) :
    (∃ mv, inferDynamism ev (.dynamicParam size none none) = .ok mv
        ∧ mv.mask.length = size ∧ ∀ m ∈ mv.mask, m = true)
    ∧ inferBound w ev true (.dynamicParam size none none)
        = .ok (List.replicate size (typeMax w))
    ∧ inferBound w ev false (.dynamicParam size none none)
        = .ok (List.replicate size (typeMin w)) := by
  refine ⟨⟨⟨List.replicate size 0, List.replicate size true⟩, rfl, by simp, ?_⟩,
    ?_, ?_⟩
  · intro m hm
    exact List.eq_of_mem_replicate hm
  · simp [inferBound, inferInterval, Except.map, List.getD, List.map_const',
      List.length_range, List.map_replicate]
  · simp [inferBound, inferInterval, Except.map, List.getD, List.map_const',
      List.length_range, List.map_replicate]

/-- Witness for C6 at an 8-bit element type and a two-element dynamic node:
the bounds are the representable extremes 127 and -128. -/
theorem dynamicParam_analysis_results_witness :
    inferBound 8 evFail true (.dynamicParam 2 none none) = .ok [127, 127]
    ∧ inferBound 8 evFail false (.dynamicParam 2 none none)
      = .ok [-128, -128] := by
  have h := dynamicParam_analysis_results 8 2 evFail
  exact ⟨by rw [h.2.1]; rfl, by rw [h.2.2]; rfl⟩

/-- An operand with inferred bounds `[0, 100]`, used to exhibit saturation in
the add transfer rule over an 8-bit element type. -/
def satOperand : Node := .dynamicParam 1 (some [0]) (some [100])

/-- C7 counterexample: over an 8-bit element type, two operands with upper
bound 100 give `upper(a+b) = 127` (the saturated type maximum), not
`upper(a) + upper(b) = 200`: the saturating transfer rule breaks the exact
sum equation at the type boundary. -/
theorem add_bound_saturation_cex :
    inferBound 8 evFail true satOperand = .ok [100]
    ∧ inferBound 8 evFail true (.add satOperand satOperand) = .ok [127]
    ∧ inferBound 8 evFail true (.add satOperand satOperand)
        ≠ .ok [100 + 100] := by
  refine ⟨rfl, rfl, ?_⟩
  intro h
  rw [show inferBound 8 evFail true (.add satOperand satOperand) = .ok [127]
    from rfl] at h
  simp at h

/-- C7 amended: for operands with inferred interval lists of equal length,
whenever every elementwise sum of the bounds is representable in the element
type, the add transfer rule gives exactly `upper(a+b) = upper(a) + upper(b)`
and `lower(a+b) = lower(a) + lower(b)`; at the type boundary the sums
saturate to the type's bounds instead. -/
theorem add_bound_transfer_amended (w : Nat) (ev : Evaluator) (a b : Node)
    (xs ys : List (Int × Int))
    (ha : inferInterval w ev a = .ok xs) (hb : inferInterval w ev b = .ok ys)
    (hlen : xs.length = ys.length)
    (hin : ∀ p ∈ List.zipWith (fun p q => (p.1 + q.1, p.2 + q.2)) xs ys,
        typeMin w ≤ p.1 ∧ p.1 ≤ typeMax w ∧ typeMin w ≤ p.2 ∧ p.2 ≤ typeMax w) :
    inferBound w ev true (.add a b)
      = .ok (List.zipWith (fun p q => p.2 + q.2) xs ys)
    ∧ inferBound w ev false (.add a b)
      = .ok (List.zipWith (fun p q => p.1 + q.1) xs ys) := by
  have hint : inferInterval w ev (.add a b)
      = .ok (List.zipWith (fun p q => (p.1 + q.1, p.2 + q.2)) xs ys) := by
    simp only [inferInterval, ha, hb, except_bind_ok]
    rw [if_pos hlen, zipWith_saturate_add w xs ys hin]
  constructor
  · rw [inferBound, hint, except_map_ok]
    simp [List.map_zipWith]
  · rw [inferBound, hint, except_map_ok]
    simp [List.map_zipWith]

/-- Witness for the amended C7 at operands with intervals `[-1, 2]` and
`[5, 5]` over a 32-bit element type. -/
theorem add_bound_transfer_amended_witness :
    inferBound 32 evFail true
        (.add (.dynamicParam 1 (some [-1]) (some [2])) (.constant [5]))
      = .ok [7]
    ∧ inferBound 32 evFail false
        (.add (.dynamicParam 1 (some [-1]) (some [2])) (.constant [5]))
      = .ok [4] := by
  have h := add_bound_transfer_amended 32 evFail
    (.dynamicParam 1 (some [-1]) (some [2])) (.constant [5])
    [(-1, 2)] [(5, 5)] rfl rfl rfl (by norm_num [typeMin, typeMax])
  simpa using h

/-- C8: for an operand with inferred bounds `[-5, 3]`, multiplying by the
constant 2 gives bounds `[-10, 6]`, and multiplying by the constant -2 gives
bounds `[-6, 10]` (the bound direction flips under a negative multiplier). -/
theorem mul_sign_flip_bounds :
    (inferBound 32 evFail true
        (.mul (.dynamicParam 1 (some [-5]) (some [3])) (.constant [2]))
      = .ok [6]
    ∧ inferBound 32 evFail false
        (.mul (.dynamicParam 1 (some [-5]) (some [3])) (.constant [2]))
      = .ok [-10])
    ∧ (inferBound 32 evFail true
        (.mul (.dynamicParam 1 (some [-5]) (some [3])) (.constant [-2]))
      = .ok [10]
    ∧ inferBound 32 evFail false
        (.mul (.dynamicParam 1 (some [-5]) (some [3])) (.constant [-2]))
      = .ok [-6]) :=
  ⟨⟨rfl, rfl⟩, ⟨rfl, rfl⟩⟩

/-- C9: when the analysis of an opcode without a transfer rule finds all
operands fully known and hands the node to the external evaluation service,
a failure of that service is returned as the analysis error — in Value mode
and in bound mode alike — never replaced by a downgraded or fully-unknown
result. -/
theorem evaluator_error_propagates (w : Nat) (ev : Evaluator)
    (tag size : Nat) (ops : List Node) (e : String) (mvs : List MaskedValue)
    (hops : inferValueList ev ops = .ok mvs)
    (hknown : mvs.all MaskedValue.allKnown = true)
    (hev : ev (.otherOp tag size ops) = .error e) :
    inferValue ev (.otherOp tag size ops) = .error e
    ∧ inferInterval w ev (.otherOp tag size ops) = .error e := by
  constructor
  · simp only [inferValue, hops, except_bind_ok]
    rw [if_pos hknown, hev, except_bind_error]
  · simp only [inferInterval, hops, except_bind_ok]
    rw [if_pos hknown, hev, except_bind_error]

/-- Witness for C9: a fallback opcode over a fully-known constant operand,
analyzed against a failing evaluation service. -/
theorem evaluator_error_propagates_witness :
    inferValue evFail (.otherOp 0 1 [.constant [1]]) = .error "unavailable"
    ∧ inferInterval 8 evFail (.otherOp 0 1 [.constant [1]])
      = .error "unavailable" :=
  evaluator_error_propagates 8 evFail 0 1 [.constant [1]] "unavailable"
    [⟨[1], [false]⟩] rfl rfl rfl

end XlaValueInference
